import Mathlib

/-!
Verification of the stackless cooperative task mechanism demonstrated by
src/async/example-stack.c (repository async.h).

The repository's core header (the control block `struct async` and the
`async_begin` / `await` / `async_end` / `async_init` protocol) is not part of
the example file, so the protocol skeleton is modelled from the design
document: a control block records a discrete resume point and a lifecycle
phase; `resume` dispatches on the recorded resume point, runs straight-line
statements until the next suspension or the end, and an `await` with a false
condition records the current statement as the new resume point, marks the
phase suspended and returns immediately.  Resuming a finished block is
modelled with the "no-op returning done again" policy the design document
offers (matching `async_end`, which leaves the block in its terminal state).

The task bodies `foo` and `bar`, their local-state frames `foo_stack` and
`bar_stack`, and the driver `example_stack` are embedded directly from
src/async/example-stack.c.  Each resume call is a pure function from the
control block, the frame, and the externally owned flag value to the updated
control block, updated frame, a result, and the list of observable statements
(the `puts` / `printf` calls of the body) executed during that call.
-/

namespace ExampleStack

/-- Modelled from the spec: lifecycle phase of a Control Block
(`NOT_STARTED`, `SUSPENDED`, `FINISHED`); the header defining the real
`struct async` state field is not in the example source. -/
inductive Phase
  | NOT_STARTED
  | SUSPENDED
  | FINISHED
  deriving DecidableEq

/-- Result reported by one `resume` call: the task either suspended again or
finished. -/
inductive AsyncRes
  | SUSPENDED
  | FINISHED
  deriving DecidableEq

/-- Modelled from the spec: the Control Block (`struct async` of the missing
header) — a discrete resume point (0 = not yet started) and a lifecycle
phase.  The `stack` pointer of the C struct is untyped, so the frame it
points to is passed alongside the block in the embedding. -/
structure Async where
  resumePoint : Nat
  phase : Phase
  deriving DecidableEq

/-- Modelled from the spec: `async_init` — resume point 0, phase not
started.  `struct async pt = {0}` zero-initialisation yields the same
state. -/
def asyncInit : Async := ⟨0, Phase.NOT_STARTED⟩

/-- Observable statements of the two task bodies in
src/async/example-stack.c, with the values they print where the body prints
a value. -/
inductive Stmt
  | fooStart
  | printFooNum (v : Int)
  | printLocalNum (v : Int)
  | initBarPt
  | barStart
  | barEnd
  | printFooNumStill (v : Int)
  | printLocalNow (v : Int)
  | fooEnd
  deriving DecidableEq

/-- The statement positions of the bodies, with printed values erased. -/
inductive Label
  | fooStart
  | printFooNum
  | printLocalNum
  | initBarPt
  | barStart
  | barEnd
  | printFooNumStill
  | printLocalNow
  | fooEnd
  deriving DecidableEq

/-- Erase the printed value of a statement, keeping its position in the
body. -/
def Stmt.label : Stmt → Label
  | .fooStart => .fooStart
  | .printFooNum _ => .printFooNum
  | .printLocalNum _ => .printLocalNum
  | .initBarPt => .initBarPt
  | .barStart => .barStart
  | .barEnd => .barEnd
  | .printFooNumStill _ => .printFooNumStill
  | .printLocalNow _ => .printLocalNow
  | .fooEnd => .fooEnd

/-- `struct bar_stack`: bar's local-state frame holds only the borrowed
pointer `int *lock`; the pointer itself is modelled as an opaque address
tag, and the integer it points to is threaded through each resume call as a
separate value. -/
structure BarStack where
  lock : Nat
  deriving DecidableEq

/-- Everything one resume call on `bar` produces: the updated control block,
the frame and pointed-to flag value after the call (bar writes neither), the
reported result, and the statements executed. -/
structure BarRun where
  cb : Async
  stack : BarStack
  lock : Int
  res : AsyncRes
  trace : List Stmt
  deriving DecidableEq

/-- The tail of `bar`'s body from its single suspension point
`await(*stack->lock)` (resume point 1): if the flag is 0 the await records
resume point 1, suspends and returns at once; otherwise execution falls
through to `puts("bar end")` and `async_end`. -/
def barAwaitLock (cb : Async) (st : BarStack) (lockVal : Int) : BarRun :=
  if lockVal = 0 then
    ⟨⟨1, Phase.SUSPENDED⟩, st, lockVal, AsyncRes.SUSPENDED, []⟩
  else
    ⟨⟨cb.resumePoint, Phase.FINISHED⟩, st, lockVal, AsyncRes.FINISHED,
      [Stmt.barEnd]⟩

/-- One resume call on `bar` (src/async/example-stack.c, lines 119-130):
`async_begin` dispatches on the recorded resume point — from the top it runs
`puts("bar start")` and falls into the await; from resume point 1 it
re-enters at the await.  A finished block is a no-op reporting finished
again. -/
def barResume (cb : Async) (st : BarStack) (lockVal : Int) : BarRun :=
  match cb.phase with
  | .FINISHED => ⟨cb, st, lockVal, AsyncRes.FINISHED, []⟩
  | _ =>
    match cb.resumePoint with
    | 0 =>
      let r := barAwaitLock cb st lockVal
      ⟨r.cb, r.stack, r.lock, r.res, Stmt.barStart :: r.trace⟩
    | _ => barAwaitLock cb st lockVal

/-- `struct foo_stack`: foo's local-state frame — the persistent `num` and
the embedded control block `bar_pt` of the awaited child task. -/
structure FooStack where
  num : Int
  bar_pt : Async
  deriving DecidableEq

/-- Everything one resume call on `foo` produces. -/
structure FooRun where
  cb : Async
  stack : FooStack
  barStack : BarStack
  lock : Int
  res : AsyncRes
  trace : List Stmt
  deriving DecidableEq

/-- The tail of `foo`'s body from its single suspension point
`await(bar(&stack->bar_pt))` (resume point 1): the await's condition calls
the child's resume on the control block stored in the frame.  If the child
suspends, foo records resume point 1, suspends and returns at once; if the
child finishes, foo falls through to the two prints and `async_end`.
`local_num` is the transient local of the body: live when this tail is
reached inside the same call that initialised it, indeterminate when the
tail is re-entered after a suspension. -/
def fooAwaitBar (cb : Async) (st : FooStack) (bst : BarStack)
    (lockVal local_num : Int) : FooRun :=
  let b := barResume st.bar_pt bst lockVal
  let st1 : FooStack := { st with bar_pt := b.cb }
  match b.res with
  | .SUSPENDED =>
    ⟨⟨1, Phase.SUSPENDED⟩, st1, b.stack, b.lock, AsyncRes.SUSPENDED, b.trace⟩
  | .FINISHED =>
    ⟨⟨cb.resumePoint, Phase.FINISHED⟩, st1, b.stack, b.lock,
      AsyncRes.FINISHED,
      b.trace ++
        [Stmt.printFooNumStill st1.num, Stmt.printLocalNow local_num,
          Stmt.fooEnd]⟩

/-- `foo`'s body run from the top: `puts("foo start")`, the frame write
`stack->num = 23`, the two prints, `int local_num = 11`,
`async_init(&stack->bar_pt)`, then the await. -/
def fooFromTop (cb : Async) (st : FooStack) (bst : BarStack)
    (lockVal : Int) : FooRun :=
  let st1 : FooStack := { st with num := 23 }
  let local_num : Int := 11
  let st2 : FooStack := { st1 with bar_pt := asyncInit }
  let r := fooAwaitBar cb st2 bst lockVal local_num
  ⟨r.cb, r.stack, r.barStack, r.lock, r.res,
    Stmt.fooStart :: Stmt.printFooNum st1.num ::
      Stmt.printLocalNum local_num :: Stmt.initBarPt :: r.trace⟩

/-- One resume call on `foo` (src/async/example-stack.c, lines 97-117):
dispatch on the recorded resume point; `garbage` is whatever value the
clobbered stack slot of `local_num` holds when foo is re-entered at its
await after a suspension. -/
def fooResume (cb : Async) (st : FooStack) (bst : BarStack)
    (lockVal garbage : Int) : FooRun :=
  match cb.phase with
  | .FINISHED => ⟨cb, st, bst, lockVal, AsyncRes.FINISHED, []⟩
  | _ =>
    match cb.resumePoint with
    | 0 => fooFromTop cb st bst lockVal
    | _ => fooAwaitBar cb st bst lockVal garbage

/-- One task instance of `foo` as `example_stack` allocates it: the control
block `pt`, the frame `stack`, and the child frame `bar_stack` it borrows. -/
structure FooInst where
  cb : Async
  stack : FooStack
  barStack : BarStack
  deriving DecidableEq

/-- One driver step on a foo instance: the input is the flag value the
externally owned `lock` holds at call time and the indeterminate stack
residue for `local_num`. -/
def fooStep (s : FooInst) (inp : Int × Int) : FooInst × AsyncRes × List Stmt :=
  let r := fooResume s.cb s.stack s.barStack inp.1 inp.2
  (⟨r.cb, r.stack, r.barStack⟩, r.res, r.trace)

/-- Drive one foo instance through a sequence of resume calls, collecting
the reported results and the concatenated statement trace. -/
def fooDrive (s : FooInst) : List (Int × Int) → FooInst × List AsyncRes × List Stmt
  | [] => (s, [], [])
  | inp :: rest =>
    let x := fooStep s inp
    let y := fooDrive x.1 rest
    (y.1, x.2.1 :: y.2.1, x.2.2 ++ y.2.2)

/-- Drive one bar instance through a sequence of resume calls with the given
flag values. -/
def barDrive (cb : Async) (st : BarStack) :
    List Int → (Async × BarStack) × List AsyncRes × List Stmt
  | [] => ((cb, st), [], [])
  | l :: rest =>
    let r := barResume cb st l
    let y := barDrive r.cb r.stack rest
    (y.1, r.res :: y.2.1, r.trace ++ y.2.2)

/-- The statement positions of `foo`'s whole body (the child's statements
included), in source order. -/
def fooBodyLabels : List Label :=
  [Label.fooStart, Label.printFooNum, Label.printLocalNum, Label.initBarPt,
    Label.barStart, Label.barEnd, Label.printFooNumStill, Label.printLocalNow,
    Label.fooEnd]

/-- The statement positions of `bar`'s body, in source order. -/
def barBodyLabels : List Label := [Label.barStart, Label.barEnd]

/-- A freshly constructed foo instance: `async_init(&pt)` with a
caller-built frame. -/
def fooInit (st0 : FooStack) (b : BarStack) : FooInst := ⟨asyncInit, st0, b⟩

/-- The canonical suspended foo instance: foo parked at its await (resume
point 1), frame holding 23 and the child parked at its own await. -/
def fooSusp (b : BarStack) : FooInst :=
  ⟨⟨1, Phase.SUSPENDED⟩, ⟨23, ⟨1, Phase.SUSPENDED⟩⟩, b⟩

/-- A finished foo instance (the resume points the parent and child blocks
last recorded depend on whether they ever suspended). -/
def fooFin (b : BarStack) (rp brp : Nat) : FooInst :=
  ⟨⟨rp, Phase.FINISHED⟩, ⟨23, ⟨brp, Phase.FINISHED⟩⟩, b⟩

/-- The states a foo instance driven from a fresh start can be in. -/
def FooCanon (b : BarStack) (s : FooInst) : Prop :=
  (s.cb.phase = Phase.NOT_STARTED ∧ s.cb.resumePoint = 0 ∧ s.barStack = b)
  ∨ s = fooSusp b ∨ s = fooFin b 0 0 ∨ s = fooFin b 1 1

/-- The statement positions a canonically reachable foo instance has already
executed, read off its phase. -/
def emittedFoo (s : FooInst) : List Label :=
  match s.cb.phase with
  | .NOT_STARTED => []
  | .SUSPENDED =>
    [Label.fooStart, Label.printFooNum, Label.printLocalNum, Label.initBarPt,
      Label.barStart]
  | .FINISHED => fooBodyLabels

/-- The states a bar block driven from a fresh start can be in. -/
def BarCanon (cb : Async) : Prop :=
  (cb.phase = Phase.NOT_STARTED ∧ cb.resumePoint = 0)
  ∨ cb = ⟨1, Phase.SUSPENDED⟩ ∨ cb.phase = Phase.FINISHED

/-- The statement positions a canonically reachable bar block has already
executed. -/
def emittedBar (cb : Async) : List Label :=
  match cb.phase with
  | .NOT_STARTED => []
  | .SUSPENDED => [Label.barStart]
  | .FINISHED => barBodyLabels

/-- Which of two independently allocated foo instances a driver step
addresses. -/
inductive Who
  | A
  | B
  deriving DecidableEq

/-- Two independently allocated Control Block / Local-State Frame pairs for
the same task function `foo`. -/
structure World2 where
  a : FooInst
  b : FooInst
  deriving DecidableEq

/-- One interleaved driver step: resume the addressed instance with the flag
value and stack residue given for that call. -/
def worldStep (w : World2) (c : Who × Int × Int) :
    World2 × AsyncRes × List Stmt :=
  match c.1 with
  | .A =>
    let x := fooStep w.a (c.2.1, c.2.2)
    (⟨x.1, w.b⟩, x.2.1, x.2.2)
  | .B =>
    let x := fooStep w.b (c.2.1, c.2.2)
    (⟨w.a, x.1⟩, x.2.1, x.2.2)

/-- Drive the two instances through an arbitrary interleaving, collecting
each instance's own result sequence and statement trace. -/
def worldDrive (w : World2) :
    List (Who × Int × Int) →
      World2 × (List AsyncRes × List Stmt) × (List AsyncRes × List Stmt)
  | [] => (w, ([], []), ([], []))
  | c :: rest =>
    let x := worldStep w c
    let y := worldDrive x.1 rest
    match c.1 with
    | .A => (y.1, (x.2.1 :: y.2.1.1, x.2.2 ++ y.2.1.2), y.2.2)
    | .B => (y.1, y.2.1, (x.2.1 :: y.2.2.1, x.2.2 ++ y.2.2.2))

/-- The calls an interleaved schedule makes on instance A, in order. -/
def projA : List (Who × Int × Int) → List (Int × Int)
  | [] => []
  | c :: rest =>
    match c.1 with
    | .A => (c.2.1, c.2.2) :: projA rest
    | .B => projA rest

/-- The calls an interleaved schedule makes on instance B, in order. -/
def projB : List (Who × Int × Int) → List (Int × Int)
  | [] => []
  | c :: rest =>
    match c.1 with
    | .A => projB rest
    | .B => (c.2.1, c.2.2) :: projB rest

/-- `bar_stack` of `example_stack`: holds the borrowed pointer to the
driver's `lock` variable. -/
def demoBarStack : BarStack := ⟨0⟩

/-- `stack` of `example_stack`: `{ .num = 0, .bar_pt.stack = &bar_stack }`,
the remaining `bar_pt` fields zero-initialised. -/
def demoFooStack : FooStack := ⟨0, asyncInit⟩

/-- The first `foo(&pt)` call of `example_stack`: flag still 0. -/
def demoRun1 : FooRun := fooResume asyncInit demoFooStack demoBarStack 0 0

/-- The second `foo(&pt)` call of `example_stack`, after `work()` clobbered
the stack (leaving residue `g` where `local_num` lived) and the driver set
`lock = 1`. -/
def demoRun2 (g : Int) : FooRun :=
  fooResume demoRun1.cb demoRun1.stack demoRun1.barStack 1 g

/-- One resume call on a canonically reachable bar block keeps it canonical,
emits exactly the statements between its old and new positions, and leaves
both the frame and the pointed-to flag unchanged. -/
theorem barResume_canon (cb : Async) (st : BarStack) (l : Int)
    (h : BarCanon cb) :
    BarCanon (barResume cb st l).cb
    ∧ emittedBar cb ++ ((barResume cb st l).trace.map Stmt.label)
        = emittedBar (barResume cb st l).cb
    ∧ (barResume cb st l).stack = st
    ∧ (barResume cb st l).lock = l := by
  obtain ⟨rp, ph⟩ := cb
  rcases h with ⟨h1, h2⟩ | h | h
  · simp only [] at h1 h2
    subst h1; subst h2
    by_cases hl : l = 0 <;>
      simp [barResume, barAwaitLock, emittedBar, BarCanon, barBodyLabels,
        Stmt.label, hl]
  · injection h with h1 h2
    subst h1; subst h2
    by_cases hl : l = 0 <;>
      simp [barResume, barAwaitLock, emittedBar, BarCanon, barBodyLabels,
        Stmt.label, hl]
  · simp only [] at h
    subst h
    simp [barResume, emittedBar, BarCanon]

/-- Driving a canonically reachable bar block keeps it canonical, emits
exactly the statements between its old and new positions, and leaves the
frame unchanged. -/
theorem barDrive_canon (inputs : List Int) (cb : Async) (st : BarStack)
    (h : BarCanon cb) :
    BarCanon (barDrive cb st inputs).1.1
    ∧ emittedBar cb ++ (((barDrive cb st inputs).2.2).map Stmt.label)
        = emittedBar (barDrive cb st inputs).1.1
    ∧ (barDrive cb st inputs).1.2 = st := by
  induction inputs generalizing cb st with
  | nil => simp [barDrive, h]
  | cons l rest ih =>
    obtain ⟨hc, he, hs, _⟩ := barResume_canon cb st l h
    obtain ⟨hc2, he2, hs2⟩ :=
      ih (barResume cb st l).cb (barResume cb st l).stack hc
    simp only [barDrive]
    refine ⟨hc2, ?_, ?_⟩
    · rw [List.map_append, ← List.append_assoc, he, he2]
    · rw [hs2, hs]

/-- One resume call on a canonically reachable foo instance keeps it
canonical, emits exactly the statements between its old and new positions,
and every frame-field read it prints shows 23. -/
theorem fooStep_canon (s : FooInst) (b : BarStack) (inp : Int × Int)
    (h : FooCanon b s) :
    FooCanon b (fooStep s inp).1
    ∧ emittedFoo s ++ (((fooStep s inp).2.2).map Stmt.label)
        = emittedFoo (fooStep s inp).1
    ∧ (∀ v, Stmt.printFooNumStill v ∈ (fooStep s inp).2.2 → v = 23)
    ∧ (∀ v, Stmt.printFooNum v ∈ (fooStep s inp).2.2 → v = 23) := by
  obtain ⟨l, g⟩ := inp
  rcases h with ⟨h1, h2, h3⟩ | rfl | rfl | rfl
  · obtain ⟨⟨rp, ph⟩, st, bst⟩ := s
    simp only [] at h1 h2 h3
    subst h1; subst h2; subst h3
    by_cases hl : l = 0 <;>
      simp [fooStep, fooResume, fooFromTop, fooAwaitBar, barResume,
        barAwaitLock, asyncInit, FooCanon, fooSusp, fooFin, emittedFoo,
        fooBodyLabels, Stmt.label, hl]
  · by_cases hl : l = 0 <;>
      simp [fooStep, fooResume, fooFromTop, fooAwaitBar, barResume,
        barAwaitLock, asyncInit, FooCanon, fooSusp, fooFin, emittedFoo,
        fooBodyLabels, Stmt.label, hl]
  · simp [fooStep, fooResume, fooFin, FooCanon, emittedFoo]
  · simp [fooStep, fooResume, fooFin, FooCanon, emittedFoo]

/-- Driving a canonically reachable foo instance keeps it canonical, emits
exactly the statements between its old and new positions, and every
frame-field read it prints shows 23. -/
theorem fooDrive_canon (inputs : List (Int × Int)) (s : FooInst)
    (b : BarStack) (h : FooCanon b s) :
    FooCanon b (fooDrive s inputs).1
    ∧ emittedFoo s ++ (((fooDrive s inputs).2.2).map Stmt.label)
        = emittedFoo (fooDrive s inputs).1
    ∧ (∀ v, Stmt.printFooNumStill v ∈ (fooDrive s inputs).2.2 → v = 23)
    ∧ (∀ v, Stmt.printFooNum v ∈ (fooDrive s inputs).2.2 → v = 23) := by
  induction inputs generalizing s with
  | nil => simp [fooDrive, h]
  | cons inp rest ih =>
    obtain ⟨hc, he, hm1, hm2⟩ := fooStep_canon s b inp h
    obtain ⟨hc2, he2, hn1, hn2⟩ := ih (fooStep s inp).1 hc
    simp only [fooDrive]
    refine ⟨hc2, ?_, ?_, ?_⟩
    · rw [List.map_append, ← List.append_assoc, he, he2]
    · intro v hv
      rcases List.mem_append.1 hv with hv | hv
      · exact hm1 v hv
      · exact hn1 v hv
    · intro v hv
      rcases List.mem_append.1 hv with hv | hv
      · exact hm2 v hv
      · exact hn2 v hv

/-- Whatever its phase, the statements a foo instance has already executed
form a prefix of the body. -/
theorem emittedFoo_head_of_body (s : FooInst) : emittedFoo s <+: fooBodyLabels := by
  unfold emittedFoo
  cases s.cb.phase <;> decide

/-- Whatever its phase, the statements a bar block has already executed form
a prefix of the body. -/
theorem emittedBar_head_of_body (cb : Async) : emittedBar cb <+: barBodyLabels := by
  unfold emittedBar
  cases cb.phase <;> decide

/-- A not-started foo instance has executed nothing. -/
theorem emittedFoo_not_started (s : FooInst)
    (h : s.cb.phase = Phase.NOT_STARTED) : emittedFoo s = [] := by
  unfold emittedFoo
  rw [h]

/-- A finished foo instance has executed its whole body. -/
theorem emittedFoo_finished (s : FooInst) (h : s.cb.phase = Phase.FINISHED) :
    emittedFoo s = fooBodyLabels := by
  unfold emittedFoo
  rw [h]

/-- A not-started bar block has executed nothing. -/
theorem emittedBar_not_started (cb : Async)
    (h : cb.phase = Phase.NOT_STARTED) : emittedBar cb = [] := by
  unfold emittedBar
  rw [h]

/-- A finished bar block has executed its whole body. -/
theorem emittedBar_finished (cb : Async) (h : cb.phase = Phase.FINISHED) :
    emittedBar cb = barBodyLabels := by
  unfold emittedBar
  rw [h]

/-- Once a canonically reachable foo instance has started, its frame field
`num` holds the value 23 last written to it. -/
theorem fooCanon_num (b : BarStack) (s : FooInst) (h : FooCanon b s)
    (hp : s.cb.phase ≠ Phase.NOT_STARTED) : s.stack.num = 23 := by
  rcases h with ⟨h1, _, _⟩ | rfl | rfl | rfl
  · exact absurd h1 hp
  · rfl
  · rfl
  · rfl

/-- Interleaved driving of two foo instances acts on each instance exactly
as driving it alone with its own sub-schedule: same final instance, same
result sequence, same statement trace, for both instances. -/
theorem worldDrive_proj (sched : List (Who × Int × Int)) (w : World2) :
    (worldDrive w sched).1.a = (fooDrive w.a (projA sched)).1
    ∧ (worldDrive w sched).2.1.1 = (fooDrive w.a (projA sched)).2.1
    ∧ (worldDrive w sched).2.1.2 = (fooDrive w.a (projA sched)).2.2
    ∧ (worldDrive w sched).1.b = (fooDrive w.b (projB sched)).1
    ∧ (worldDrive w sched).2.2.1 = (fooDrive w.b (projB sched)).2.1
    ∧ (worldDrive w sched).2.2.2 = (fooDrive w.b (projB sched)).2.2 := by
  induction sched generalizing w with
  | nil => simp [worldDrive, fooDrive, projA, projB]
  | cons c rest ih =>
    obtain ⟨who, l, g⟩ := c
    cases who
    · have ih' := ih ⟨(fooStep w.a (l, g)).1, w.b⟩
      simp only [worldDrive, worldStep, projA, projB, fooDrive] at ih' ⊢
      obtain ⟨ha1, ha2, ha3, hb1, hb2, hb3⟩ := ih'
      exact ⟨ha1, by rw [ha2], by rw [ha3], hb1, hb2, hb3⟩
    · have ih' := ih ⟨w.a, (fooStep w.b (l, g)).1⟩
      simp only [worldDrive, worldStep, projA, projB, fooDrive] at ih' ⊢
      obtain ⟨ha1, ha2, ha3, hb1, hb2, hb3⟩ := ih'
      exact ⟨ha1, ha2, ha3, hb1, by rw [hb2], by rw [hb3]⟩

/-- The statements one resume call on `bar` can execute: nothing, the head
of the body, the tail of the body, or the whole body. -/
theorem barResume_trace_forms (cb : Async) (st : BarStack) (l : Int) :
    (barResume cb st l).trace = []
    ∨ (barResume cb st l).trace = [Stmt.barStart]
    ∨ (barResume cb st l).trace = [Stmt.barEnd]
    ∨ (barResume cb st l).trace = [Stmt.barStart, Stmt.barEnd] := by
  obtain ⟨rp, ph⟩ := cb
  cases ph
  case FINISHED => simp [barResume]
  case NOT_STARTED =>
    cases rp <;> by_cases hl : l = 0 <;>
      simp [barResume, barAwaitLock, hl]
  case SUSPENDED =>
    cases rp <;> by_cases hl : l = 0 <;>
      simp [barResume, barAwaitLock, hl]

/-- Claim C1: driving `foo` from a fresh start through any sequence of
resume calls executes the statements of its body (the awaited child's
included) in source order with no repetition — the concatenated trace is
always a duplicate-free prefix of the body, and is the whole body exactly
when the task reports finished; likewise for `bar` driven alone.  Statements
already run before a suspension are never replayed, because each call's
statements extend the trace strictly beyond what earlier calls emitted. -/
theorem claim_C1 (st0 : FooStack) (b : BarStack) (inputs : List (Int × Int))
    (binputs : List Int) :
    (((fooDrive (fooInit st0 b) inputs).2.2).map Stmt.label <+: fooBodyLabels)
    ∧ (((fooDrive (fooInit st0 b) inputs).2.2).map Stmt.label).Nodup
    ∧ ((fooDrive (fooInit st0 b) inputs).1.cb.phase = Phase.FINISHED →
        ((fooDrive (fooInit st0 b) inputs).2.2).map Stmt.label
          = fooBodyLabels)
    ∧ (((barDrive asyncInit b binputs).2.2).map Stmt.label <+: barBodyLabels)
    ∧ (((barDrive asyncInit b binputs).2.2).map Stmt.label).Nodup
    ∧ ((barDrive asyncInit b binputs).1.1.phase = Phase.FINISHED →
        ((barDrive asyncInit b binputs).2.2).map Stmt.label
          = barBodyLabels) := by
  have h0 : FooCanon b (fooInit st0 b) := Or.inl ⟨rfl, rfl, rfl⟩
  obtain ⟨hc, he, -, -⟩ := fooDrive_canon inputs (fooInit st0 b) b h0
  have hnil : emittedFoo (fooInit st0 b) = [] := rfl
  rw [hnil, List.nil_append] at he
  have hb0 : BarCanon asyncInit := Or.inl ⟨rfl, rfl⟩
  obtain ⟨hbc, hbe, -⟩ := barDrive_canon binputs asyncInit b hb0
  have hbnil : emittedBar asyncInit = [] := rfl
  rw [hbnil, List.nil_append] at hbe
  refine ⟨?_, ?_, ?_, ?_, ?_, ?_⟩
  · rw [he]; exact emittedFoo_head_of_body _
  · rw [he]
    exact List.Nodup.sublist (emittedFoo_head_of_body _).sublist (by decide)
  · intro hf
    rw [he]
    exact emittedFoo_finished _ hf
  · rw [hbe]; exact emittedBar_head_of_body _
  · rw [hbe]
    exact List.Nodup.sublist (emittedBar_head_of_body _).sublist (by decide)
  · intro hf
    rw [hbe]
    exact emittedBar_finished _ hf

/-- Witness for C1 at the demo's schedule: suspend once, then finish. -/
theorem claim_C1_witness :
    ((fooDrive (fooInit demoFooStack demoBarStack) [(0, 0), (1, 7)]).2.2).map
        Stmt.label = fooBodyLabels
    ∧ ((barDrive asyncInit demoBarStack [0, 1]).2.2).map Stmt.label
        = barBodyLabels :=
  ⟨(claim_C1 demoFooStack demoBarStack [(0, 0), (1, 7)] [0, 1]).2.2.1
      (by decide),
    (claim_C1 demoFooStack demoBarStack [(0, 0), (1, 7)] [0, 1]).2.2.2.2.2
      (by decide)⟩

/-- Claim C2: at `bar`'s `await(*stack->lock)`, a zero flag records resume
point 1, suspends and runs nothing further in that call, while a nonzero
flag falls through to the rest of the body with no suspension; at `foo`'s
`await(bar(&stack->bar_pt))`, a suspended child makes the parent record
resume point 1, suspend and run none of its own statements after the await,
while a finished child lets the parent fall through to its end. -/
theorem claim_C2 (cb fcb : Async) (st : FooStack) (bst : BarStack)
    (l ln : Int) :
    ((l = 0 →
        (barAwaitLock cb bst l).cb = ⟨1, Phase.SUSPENDED⟩
        ∧ (barAwaitLock cb bst l).res = AsyncRes.SUSPENDED
        ∧ (barAwaitLock cb bst l).trace = [])
      ∧ (l ≠ 0 →
        (barAwaitLock cb bst l).res = AsyncRes.FINISHED
        ∧ (barAwaitLock cb bst l).cb.phase = Phase.FINISHED
        ∧ (barAwaitLock cb bst l).trace = [Stmt.barEnd]))
    ∧ (((barResume st.bar_pt bst l).res = AsyncRes.SUSPENDED →
        (fooAwaitBar fcb st bst l ln).cb = ⟨1, Phase.SUSPENDED⟩
        ∧ (fooAwaitBar fcb st bst l ln).res = AsyncRes.SUSPENDED
        ∧ Stmt.fooEnd ∉ (fooAwaitBar fcb st bst l ln).trace
        ∧ ∀ v, Stmt.printFooNumStill v ∉ (fooAwaitBar fcb st bst l ln).trace)
      ∧ ((barResume st.bar_pt bst l).res = AsyncRes.FINISHED →
        (fooAwaitBar fcb st bst l ln).res = AsyncRes.FINISHED
        ∧ (fooAwaitBar fcb st bst l ln).cb.phase = Phase.FINISHED
        ∧ Stmt.fooEnd ∈ (fooAwaitBar fcb st bst l ln).trace)) := by
  constructor
  · constructor
    · intro hl
      simp [barAwaitLock, hl]
    · intro hl
      simp [barAwaitLock, hl]
  · constructor
    · intro hb
      have hforms := barResume_trace_forms st.bar_pt bst l
      refine ⟨by simp [fooAwaitBar, hb], by simp [fooAwaitBar, hb], ?_, ?_⟩
      · simp only [fooAwaitBar, hb]
        rcases hforms with h | h | h | h <;> simp [h]
      · simp only [fooAwaitBar, hb]
        rcases hforms with h | h | h | h <;> simp [h]
    · intro hb
      refine ⟨?_, ?_, ?_⟩ <;> simp [fooAwaitBar, hb]

/-- Witness for C2 at the demo's frames: flag 0 suspends both awaits, flag 1
lets both fall through. -/
theorem claim_C2_witness :
    (barAwaitLock asyncInit demoBarStack 0).res = AsyncRes.SUSPENDED
    ∧ (barAwaitLock asyncInit demoBarStack 1).res = AsyncRes.FINISHED
    ∧ (fooAwaitBar ⟨1, Phase.SUSPENDED⟩ ⟨23, ⟨1, Phase.SUSPENDED⟩⟩
        demoBarStack 0 0).res = AsyncRes.SUSPENDED
    ∧ Stmt.fooEnd ∈ (fooAwaitBar ⟨1, Phase.SUSPENDED⟩
        ⟨23, ⟨1, Phase.SUSPENDED⟩⟩ demoBarStack 1 0).trace :=
  ⟨((claim_C2 asyncInit asyncInit ⟨23, ⟨1, Phase.SUSPENDED⟩⟩ demoBarStack
      0 0).1.1 (by decide)).2.1,
    ((claim_C2 asyncInit asyncInit ⟨23, ⟨1, Phase.SUSPENDED⟩⟩ demoBarStack
      1 0).1.2 (by decide)).1,
    ((claim_C2 asyncInit ⟨1, Phase.SUSPENDED⟩ ⟨23, ⟨1, Phase.SUSPENDED⟩⟩
      demoBarStack 0 0).2.1 (by decide)).2.1,
    ((claim_C2 asyncInit ⟨1, Phase.SUSPENDED⟩ ⟨23, ⟨1, Phase.SUSPENDED⟩⟩
      demoBarStack 1 0).2.2 (by decide)).2.2⟩

/-- Claim C3: a parent suspended at `await(bar(&stack->bar_pt))` suspends
again if and only if the child's resume made there reports suspended; the
resume re-invokes the child's resume on the control block stored in the
frame, whose updated value it stores back, so a child parked at its own
await continues there (no `bar start`, no re-initialisation) instead of
either task restarting from the top. -/
theorem claim_C3 (cb : Async) (st : FooStack) (bst : BarStack) (l g : Int)
    (h1 : cb.resumePoint = 1) (h2 : cb.phase = Phase.SUSPENDED) :
    ((fooResume cb st bst l g).res = AsyncRes.SUSPENDED
      ↔ (barResume st.bar_pt bst l).res = AsyncRes.SUSPENDED)
    ∧ (fooResume cb st bst l g).stack.bar_pt = (barResume st.bar_pt bst l).cb
    ∧ (fooResume cb st bst l g).stack.num = st.num
    ∧ (st.bar_pt = ⟨1, Phase.SUSPENDED⟩ →
        Stmt.barStart ∉ (fooResume cb st bst l g).trace
        ∧ Stmt.initBarPt ∉ (fooResume cb st bst l g).trace
        ∧ Stmt.fooStart ∉ (fooResume cb st bst l g).trace) := by
  obtain ⟨rp, ph⟩ := cb
  simp only [] at h1 h2
  subst h1; subst h2
  have hfoo : fooResume ⟨1, Phase.SUSPENDED⟩ st bst l g
      = fooAwaitBar ⟨1, Phase.SUSPENDED⟩ st bst l g := rfl
  rw [hfoo]
  cases hb : (barResume st.bar_pt bst l).res
  all_goals
    refine ⟨by simp [fooAwaitBar, hb], by simp [fooAwaitBar, hb],
      by simp [fooAwaitBar, hb], ?_⟩
    intro hpt
    by_cases hl : l = 0 <;>
      simp [fooAwaitBar, barResume, barAwaitLock, hpt, hl]

/-- Witness for C3 at the demo's suspended state with the flag still 0: the
child reports suspended and so does the parent, with the child's statements
untouched. -/
theorem claim_C3_witness :
    ((fooResume ⟨1, Phase.SUSPENDED⟩ ⟨23, ⟨1, Phase.SUSPENDED⟩⟩ demoBarStack
        0 0).res = AsyncRes.SUSPENDED
      ↔ (barResume ⟨1, Phase.SUSPENDED⟩ demoBarStack 0).res
          = AsyncRes.SUSPENDED) ∧
    Stmt.barStart ∉ (fooResume ⟨1, Phase.SUSPENDED⟩
        ⟨23, ⟨1, Phase.SUSPENDED⟩⟩ demoBarStack 0 0).trace :=
  ⟨(claim_C3 ⟨1, Phase.SUSPENDED⟩ ⟨23, ⟨1, Phase.SUSPENDED⟩⟩ demoBarStack 0 0
      rfl rfl).1,
    ((claim_C3 ⟨1, Phase.SUSPENDED⟩ ⟨23, ⟨1, Phase.SUSPENDED⟩⟩ demoBarStack
      0 0 rfl rfl).2.2.2 rfl).1⟩

/-- Claim C4: the frame field `num`, written before `foo`'s suspension, is
read back unchanged after it — under any interleaved schedule that also
resumes a second, unrelated instance arbitrarily often, every post-await
read of the field prints the value 23 last written to it, and once the
instance has started the field holds 23 in the final state. -/
theorem claim_C4 (st0 : FooStack) (b : BarStack) (wb : FooInst)
    (sched : List (Who × Int × Int)) :
    (∀ v, Stmt.printFooNumStill v ∈
        (worldDrive ⟨fooInit st0 b, wb⟩ sched).2.1.2 → v = 23)
    ∧ ((worldDrive ⟨fooInit st0 b, wb⟩ sched).1.a.cb.phase
          ≠ Phase.NOT_STARTED →
        (worldDrive ⟨fooInit st0 b, wb⟩ sched).1.a.stack.num = 23) := by
  obtain ⟨ha1, -, ha3, -, -, -⟩ := worldDrive_proj sched ⟨fooInit st0 b, wb⟩
  have h0 : FooCanon b (fooInit st0 b) := Or.inl ⟨rfl, rfl, rfl⟩
  obtain ⟨hc, -, hm, -⟩ := fooDrive_canon (projA sched) (fooInit st0 b) b h0
  constructor
  · intro v hv
    rw [ha3] at hv
    exact hm v hv
  · intro hp
    rw [ha1] at hp ⊢
    exact fooCanon_num b _ hc hp

/-- Witness for C4: instance A suspends, B is driven in between, A then
finishes; A's frame field still reads 23. -/
theorem claim_C4_witness :
    (worldDrive ⟨fooInit demoFooStack demoBarStack,
        fooInit demoFooStack demoBarStack⟩
      [(Who.A, 0, 0), (Who.B, 0, 0), (Who.B, 1, 5), (Who.A, 1, 9)]).1.a.stack.num
      = 23 :=
  (claim_C4 demoFooStack demoBarStack (fooInit demoFooStack demoBarStack)
    [(Who.A, 0, 0), (Who.B, 0, 0), (Who.B, 1, 5), (Who.A, 1, 9)]).2
    (by decide)

/-- Claim C5: the demo scenario of `example_stack` — `foo` writes 23 into
its frame and awaits `bar`, which blocks on the externally owned flag
starting at 0; the first resume call reports suspended with the frame field
at 23 (and printed as 23), and after the driver sets the flag to 1 the
second resume call finishes child and parent, reports finished, and the
frame field reads 23 throughout. -/
theorem claim_C5 (g : Int) :
    demoRun1.res = AsyncRes.SUSPENDED
    ∧ demoRun1.stack.num = 23
    ∧ Stmt.printFooNum 23 ∈ demoRun1.trace
    ∧ (demoRun2 g).res = AsyncRes.FINISHED
    ∧ (demoRun2 g).cb.phase = Phase.FINISHED
    ∧ (demoRun2 g).stack.bar_pt.phase = Phase.FINISHED
    ∧ (demoRun2 g).stack.num = 23
    ∧ Stmt.printFooNumStill 23 ∈ (demoRun2 g).trace := by
  have h1 : demoRun1.cb = ⟨1, Phase.SUSPENDED⟩ := by decide
  have h2 : demoRun1.stack = ⟨23, ⟨1, Phase.SUSPENDED⟩⟩ := by decide
  have h3 : demoRun1.barStack = ⟨0⟩ := by decide
  refine ⟨by decide, by decide, by decide, ?_, ?_, ?_, ?_, ?_⟩ <;>
    simp [demoRun2, h1, h2, h3, fooResume, fooAwaitBar, barResume,
      barAwaitLock]

/-- Claim C6: finished is terminal — resuming a block whose task has
reported finished is a deterministic no-op: it reports finished again,
executes no statement of the body, and leaves the block and frame
untouched, for `foo` and `bar` alike. -/
theorem claim_C6 (cb cb2 : Async) (st : FooStack) (bst bst2 : BarStack)
    (l g l2 : Int) (h : cb.phase = Phase.FINISHED)
    (h2 : cb2.phase = Phase.FINISHED) :
    fooResume cb st bst l g = ⟨cb, st, bst, l, AsyncRes.FINISHED, []⟩
    ∧ barResume cb2 bst2 l2 = ⟨cb2, bst2, l2, AsyncRes.FINISHED, []⟩ := by
  obtain ⟨rp, ph⟩ := cb
  obtain ⟨rp2, ph2⟩ := cb2
  simp only [] at h h2
  subst h; subst h2
  exact ⟨rfl, rfl⟩

/-- Witness for C6 at the finished blocks the demo run ends in. -/
theorem claim_C6_witness :
    fooResume ⟨1, Phase.FINISHED⟩ ⟨23, ⟨1, Phase.FINISHED⟩⟩ demoBarStack 1 7
        = ⟨⟨1, Phase.FINISHED⟩, ⟨23, ⟨1, Phase.FINISHED⟩⟩, demoBarStack, 1,
            AsyncRes.FINISHED, []⟩
    ∧ barResume ⟨1, Phase.FINISHED⟩ demoBarStack 0
        = ⟨⟨1, Phase.FINISHED⟩, demoBarStack, 0, AsyncRes.FINISHED, []⟩ :=
  claim_C6 ⟨1, Phase.FINISHED⟩ ⟨1, Phase.FINISHED⟩ ⟨23, ⟨1, Phase.FINISHED⟩⟩
    demoBarStack demoBarStack 1 7 0 rfl rfl

/-- Claim C7: two independently allocated Control Block / Local-State Frame
pairs for the same task function, driven by resume calls in any interleaved
order, each produce exactly the final state, result sequence and statement
trace they produce when driven alone with their own calls — no state is
shared between the instances. -/
theorem claim_C7 (wa wb : FooInst) (sched : List (Who × Int × Int)) :
    (worldDrive ⟨wa, wb⟩ sched).1.a = (fooDrive wa (projA sched)).1
    ∧ (worldDrive ⟨wa, wb⟩ sched).2.1.1 = (fooDrive wa (projA sched)).2.1
    ∧ (worldDrive ⟨wa, wb⟩ sched).2.1.2 = (fooDrive wa (projA sched)).2.2
    ∧ (worldDrive ⟨wa, wb⟩ sched).1.b = (fooDrive wb (projB sched)).1
    ∧ (worldDrive ⟨wa, wb⟩ sched).2.2.1 = (fooDrive wb (projB sched)).2.1
    ∧ (worldDrive ⟨wa, wb⟩ sched).2.2.2 = (fooDrive wb (projB sched)).2.2 :=
  worldDrive_proj sched ⟨wa, wb⟩

/-- The statements a foo instance has executed never include the child's
initialisation more than once, and include it exactly once from the moment
the instance has started. -/
theorem emittedFoo_initBarPt (s : FooInst) :
    (emittedFoo s).count Label.initBarPt ≤ 1
    ∧ (s.cb.phase ≠ Phase.NOT_STARTED →
        (emittedFoo s).count Label.initBarPt = 1) := by
  unfold emittedFoo
  cases h : s.cb.phase
  · exact ⟨by decide, fun hc => absurd rfl hc⟩
  · exact ⟨by decide, fun _ => by decide⟩
  · exact ⟨by decide, fun _ => by decide⟩

/-- Claim C8: every resume call returns after a bounded amount of work — the
statements it executes are one contiguous stretch of the body (never more
than the whole body, 9 statements for `foo` and its child, 2 for `bar`),
whatever the state of the blocks and the flag. -/
theorem claim_C8 (cb cb2 : Async) (st : FooStack) (bst bst2 : BarStack)
    (l g l2 : Int) :
    ((fooResume cb st bst l g).trace.map Stmt.label <:+: fooBodyLabels
      ∧ (fooResume cb st bst l g).trace.length ≤ 9)
    ∧ ((barResume cb2 bst2 l2).trace.map Stmt.label <:+: barBodyLabels
      ∧ (barResume cb2 bst2 l2).trace.length ≤ 2) := by
  constructor
  · obtain ⟨rp, ph⟩ := cb
    obtain ⟨num, bpt⟩ := st
    obtain ⟨brp, bph⟩ := bpt
    cases ph <;> cases rp <;> cases bph <;> cases brp <;>
      by_cases hl : l = 0 <;>
      simp [fooResume, fooFromTop, fooAwaitBar, barResume, barAwaitLock,
        asyncInit, Stmt.label, hl] <;>
      decide
  · obtain ⟨rp2, ph2⟩ := cb2
    cases ph2 <;> cases rp2 <;> by_cases hl2 : l2 = 0 <;>
      simp [barResume, barAwaitLock, Stmt.label, hl2] <;>
      decide

/-- Claim C9: a resume that re-enters `foo` at its await jumps past
`async_init(&stack->bar_pt)` — it never re-executes the initialisation, and
the child's block afterwards is exactly what the child's own resume left
there; over a whole run from a fresh start the initialisation executes at
most once, and exactly once as soon as the instance has started. -/
theorem claim_C9 (cb : Async) (st : FooStack) (bst : BarStack) (l g : Int)
    (st0 : FooStack) (b : BarStack) (inputs : List (Int × Int))
    (h1 : cb.resumePoint = 1) (h2 : cb.phase = Phase.SUSPENDED) :
    Stmt.initBarPt ∉ (fooResume cb st bst l g).trace
    ∧ (fooResume cb st bst l g).stack.bar_pt
        = (barResume st.bar_pt bst l).cb
    ∧ (((fooDrive (fooInit st0 b) inputs).2.2).map Stmt.label).count
        Label.initBarPt ≤ 1
    ∧ ((fooDrive (fooInit st0 b) inputs).1.cb.phase ≠ Phase.NOT_STARTED →
        (((fooDrive (fooInit st0 b) inputs).2.2).map Stmt.label).count
          Label.initBarPt = 1) := by
  have h0 : FooCanon b (fooInit st0 b) := Or.inl ⟨rfl, rfl, rfl⟩
  obtain ⟨-, he, -, -⟩ := fooDrive_canon inputs (fooInit st0 b) b h0
  have hnil : emittedFoo (fooInit st0 b) = [] := rfl
  rw [hnil, List.nil_append] at he
  obtain ⟨rp, ph⟩ := cb
  simp only [] at h1 h2
  subst h1; subst h2
  have hfoo : fooResume ⟨1, Phase.SUSPENDED⟩ st bst l g
      = fooAwaitBar ⟨1, Phase.SUSPENDED⟩ st bst l g := rfl
  rw [hfoo]
  refine ⟨?_, ?_, ?_, ?_⟩
  · cases hb : (barResume st.bar_pt bst l).res <;>
      simp only [fooAwaitBar, hb] <;>
      rcases barResume_trace_forms st.bar_pt bst l with h | h | h | h <;>
      simp [h]
  · cases hb : (barResume st.bar_pt bst l).res <;> simp [fooAwaitBar, hb]
  · rw [he]
    exact (emittedFoo_initBarPt _).1
  · intro hp
    rw [he]
    exact (emittedFoo_initBarPt _).2 hp

/-- Witness for C9: resuming the demo's suspended state re-runs no
initialisation, and the finished demo run initialised the child exactly
once. -/
theorem claim_C9_witness :
    Stmt.initBarPt ∉ (fooResume ⟨1, Phase.SUSPENDED⟩
        ⟨23, ⟨1, Phase.SUSPENDED⟩⟩ demoBarStack 0 0).trace
    ∧ (((fooDrive (fooInit demoFooStack demoBarStack)
          [(0, 0), (1, 7)]).2.2).map Stmt.label).count Label.initBarPt
        = 1 :=
  ⟨(claim_C9 ⟨1, Phase.SUSPENDED⟩ ⟨23, ⟨1, Phase.SUSPENDED⟩⟩ demoBarStack 0 0
      demoFooStack demoBarStack [(0, 0), (1, 7)] rfl rfl).1,
    (claim_C9 ⟨1, Phase.SUSPENDED⟩ ⟨23, ⟨1, Phase.SUSPENDED⟩⟩ demoBarStack 0 0
      demoFooStack demoBarStack [(0, 0), (1, 7)] rfl rfl).2.2.2 (by decide)⟩

/-- Counterexample to C10 as stated: on a block whose task has already
reported finished, a resume call with the flag reading 0 reports finished
(the terminal no-op), not a not-finished result. -/
theorem claim_C10_counterexample :
    (barResume ⟨1, Phase.FINISHED⟩ ⟨0⟩ 0).res = AsyncRes.FINISHED := by
  decide

/-- Claim C10 (amended to blocks that have not already finished): a resume
call on `bar` writes neither the flag it awaits, nor its frame (the stored
lock pointer included), nor the parent's frame field `num`; for a block that
has not reported finished it reports not-finished whenever the flag reads 0
at call time, and a resume at its await with the flag nonzero reports
finished. -/
theorem claim_C10 (cb : Async) (st : BarStack) (l : Int) :
    (barResume cb st l).stack = st
    ∧ (barResume cb st l).lock = l
    ∧ (cb.phase ≠ Phase.FINISHED → l = 0 →
        (barResume cb st l).res = AsyncRes.SUSPENDED)
    ∧ (cb.phase = Phase.SUSPENDED → cb.resumePoint = 1 → l ≠ 0 →
        (barResume cb st l).res = AsyncRes.FINISHED)
    ∧ (∀ (fcb : Async) (fst : FooStack) (g : Int),
        fcb.resumePoint = 1 → fcb.phase = Phase.SUSPENDED →
        (fooResume fcb fst st l g).stack.num = fst.num) := by
  obtain ⟨rp, ph⟩ := cb
  refine ⟨?_, ?_, ?_, ?_, ?_⟩
  · cases ph <;> cases rp <;> by_cases hl : l = 0 <;>
      simp [barResume, barAwaitLock, hl]
  · cases ph <;> cases rp <;> by_cases hl : l = 0 <;>
      simp [barResume, barAwaitLock, hl]
  · intro hp hl
    cases ph
    · cases rp <;> simp [barResume, barAwaitLock, hl]
    · cases rp <;> simp [barResume, barAwaitLock, hl]
    · exact absurd rfl hp
  · intro hs hr hl
    simp only [] at hs hr
    subst hs; subst hr
    simp [barResume, barAwaitLock, hl]
  · intro fcb fst g hr hp
    obtain ⟨frp, fph⟩ := fcb
    simp only [] at hr hp
    subst hr; subst hp
    have hfoo : fooResume ⟨1, Phase.SUSPENDED⟩ fst st l g
        = fooAwaitBar ⟨1, Phase.SUSPENDED⟩ fst st l g := rfl
    rw [hfoo]
    cases hb : (barResume fst.bar_pt st l).res <;> simp [fooAwaitBar, hb]

/-- Witness for C10 at the demo's suspended child block: flag 0 keeps it
suspended, flag 1 finishes it, and the parent's frame field is untouched. -/
theorem claim_C10_witness :
    (barResume ⟨1, Phase.SUSPENDED⟩ ⟨0⟩ 0).res = AsyncRes.SUSPENDED
    ∧ (barResume ⟨1, Phase.SUSPENDED⟩ ⟨0⟩ 1).res = AsyncRes.FINISHED
    ∧ (fooResume ⟨1, Phase.SUSPENDED⟩ ⟨23, ⟨1, Phase.SUSPENDED⟩⟩ ⟨0⟩ 0
        0).stack.num = (23 : Int) :=
  ⟨(claim_C10 ⟨1, Phase.SUSPENDED⟩ ⟨0⟩ 0).2.2.1 (by decide) rfl,
    (claim_C10 ⟨1, Phase.SUSPENDED⟩ ⟨0⟩ 1).2.2.2.1 rfl rfl (by decide),
    (claim_C10 ⟨1, Phase.SUSPENDED⟩ ⟨0⟩ 0).2.2.2.2 ⟨1, Phase.SUSPENDED⟩
      ⟨23, ⟨1, Phase.SUSPENDED⟩⟩ 0 rfl rfl⟩

end ExampleStack
